import Mathlib

/-
Shallow embedding of `src/app.py`, a small Flask front-end that normalizes
YouTube identifiers, downloads videos through an external extractor
(`yt_dlp`), and manages a flat `downloads/` directory (list / serve /
delete) with path-traversal protection.

Modelling conventions:
  * Python strings are `List Char` (`PyStr`); `str.strip` is
    `pyStrip` (ASCII whitespace); `x in s` is list membership / `<:+:`.
  * Filesystem paths are handled both as strings (as the code does for its
    `startswith` containment check) and as normalized segment lists (the
    meaning of `os.path.abspath`).
  * The filesystem is an explicit value (`FS`): regular files with size and
    modification time, directories, and a set of undeletable paths used to
    model `PermissionError` from `os.remove`.
  * The `yt_dlp` collaborator is a parameter (`Extractor`): its metadata
    answer, chosen extension, and the effect of its download call, each of
    which may fail with a message (a Python exception's `str`).
-/

deriving instance DecidableEq for Except

namespace YVD

/-- Python strings, modelled as lists of characters. -/
abbrev PyStr := List Char

/-- The ASCII characters removed by Python `str.strip()`. -/
def isPySpace (c : Char) : Bool :=
  c = ' ' || c = '\t' || c = '\n' || c = '\x0d' || c = '\x0b' || c = '\x0c'

/-- Python `str.strip()`: remove leading and trailing whitespace. -/
def pyStrip (s : PyStr) : PyStr :=
  (s.dropWhile isPySpace).rdropWhile isPySpace

/-- The double-quote character (escaped via its code point to keep string
literals readable). -/
def quoteChar : Char := Char.ofNat 34

/-- The single-quote character. -/
def aposChar : Char := Char.ofNat 39

/-- The characters rejected by `validate_youtube_input`
(`['<', '>', '"', "'"]` in the source). -/
def forbiddenChars : List Char := ['<', '>', quoteChar, aposChar]

/-- The literal `'http://'`. -/
def httpPre : PyStr := "http://".toList

/-- The literal `'https://'`. -/
def httpsPre : PyStr := "https://".toList

/-- The literal `'https://www.youtube.com/watch?v='`. -/
def watchPre : PyStr := "https://www.youtube.com/watch?v=".toList

/-- The literal `'youtube.com'`. -/
def ytDotCom : PyStr := "youtube.com".toList

/-- The literal `'youtu.be'`. -/
def ytDotBe : PyStr := "youtu.be".toList

/-- Python `str.isalnum` on one character, restricted to the ASCII range
(the repository's identifiers of interest are ASCII). -/
def pyIsAlnumChar (c : Char) : Bool :=
  (decide ('0' ≤ c) && decide (c ≤ '9')) ||
  (decide ('a' ≤ c) && decide (c ≤ 'z')) ||
  (decide ('A' ≤ c) && decide (c ≤ 'Z'))

/-- Python `str.isalnum`: every character alphanumeric AND the string
non-empty (`''.isalnum()` is `False`). -/
def pyIsAlnum (s : PyStr) : Bool :=
  !s.isEmpty && s.all pyIsAlnumChar

/-- Function `normalize_youtube_url` from `src/app.py` (lines 34-55): normalize
YouTube input to a URL the extractor can handle. -/
def normalize_youtube_url (url_or_id : PyStr) : PyStr :=
  let u := pyStrip url_or_id
  if httpPre.isPrefixOf u ∨ httpsPre.isPrefixOf u then
    u
  else if u.length = 11 ∧
      pyIsAlnum ((u.filter (fun c => c != '-')).filter (fun c => c != '_')) then
    watchPre ++ u
  else if ytDotCom <:+: u ∨ ytDotBe <:+: u then
    if ¬ (httpPre.isPrefixOf u ∨ httpsPre.isPrefixOf u) then httpsPre ++ u
    else u
  else
    watchPre ++ u

/-- Function `validate_youtube_input` from `src/app.py` (lines 16-31): validate and
return the normalized URL, or a `ValueError` message. -/
def validate_youtube_input (url_or_id : PyStr) : Except PyStr PyStr :=
  if url_or_id = [] ∨ pyStrip url_or_id = [] then
    .error "Please enter a YouTube video ID or URL".toList
  else
    let u := pyStrip url_or_id
    if forbiddenChars.any (fun c => decide (c ∈ u)) then
      .error "Invalid characters in URL".toList
    else if u.length > 2048 then
      .error "URL too long".toList
    else
      .ok (normalize_youtube_url u)

/-! ### Path model (POSIX, as used by `os.path` in the source) -/

/-- A path segment (one component between separators). -/
abbrev Seg := List Char

/-- Split a string on `'/'`, keeping empty components, as `str.split('/')`
does (`splitPath [] = [[]]`, like `''.split('/') == ['']`). -/
def splitPath (s : PyStr) : List Seg :=
  s.foldr (fun c acc =>
    if c = '/' then [] :: acc
    else
      match acc with
      | [] => [[c]]
      | t :: ts => (c :: t) :: ts) [[]]

/-- One step of `posixpath.normpath` on an absolute path: empty and `.`
components vanish, `..` pops one segment (and is dropped at the root). -/
def normStep (acc : List Seg) (seg : Seg) : List Seg :=
  if seg = [] ∨ seg = ['.'] then acc
  else if seg = ['.', '.'] then acc.dropLast
  else acc ++ [seg]

/-- Process empty, `.` and `..` components the way `posixpath.normpath`
does on an absolute path. -/
def normSegs (segs : List Seg) : List Seg :=
  segs.foldl normStep []

/-- Model of `os.path.join(a, b)` for POSIX (`posixpath.join`): an absolute `b`
discards `a`; otherwise a separator is inserted unless `a` is empty or
already ends in one. -/
def pyJoin (a b : PyStr) : PyStr :=
  if b.head? = some '/' then b
  else if a = [] ∨ a.getLast? = some '/' then a ++ b
  else a ++ '/' :: b

/-- The store directory constant `DOWNLOADS_DIR = 'downloads'`. -/
def DOWNLOADS_DIR : PyStr := "downloads".toList

/-- Model of `os.path.abspath p` as normalized segments, the current working
directory being given as normalized absolute segments: relative paths are
resolved against the cwd, then `normpath` is applied. -/
def absSegs (cwd : List Seg) (p : PyStr) : List Seg :=
  if p.head? = some '/' then normSegs (splitPath p)
  else normSegs (cwd ++ splitPath p)

/-- Append one segment to a rendered path string. -/
def renderStep (acc : PyStr) (seg : Seg) : PyStr := acc ++ '/' :: seg

/-- Render normalized absolute segments to a path string (`/a/b`; a bare
`/` for the root). -/
def segsToStr (segs : List Seg) : PyStr :=
  if segs = [] then ['/']
  else segs.foldl renderStep []

/-- The containment test of `delete_file` (lines 184-186), exactly as the
code phrases it on path strings: the file's absolute path either extends
the store directory's absolute path past a separator or equals it. -/
def withinStore (storeAbs fileAbs : PyStr) : Prop :=
  (storeAbs ++ ['/']).isPrefixOf fileAbs ∨ fileAbs = storeAbs

instance (a b : PyStr) : Decidable (withinStore a b) := by
  unfold withinStore; infer_instance

/-- A well-formed directory-entry segment: non-empty, not `.` or `..`, and
free of separators — the shape every name returned by `os.listdir` has. -/
def validSeg (s : Seg) : Prop :=
  s ≠ [] ∧ s ≠ ['.'] ∧ s ≠ ['.', '.'] ∧ '/' ∉ s

instance (s : Seg) : Decidable (validSeg s) := by
  unfold validSeg; infer_instance

/-! ### Filesystem model -/

/-- One regular file: normalized absolute path (as segments), size in
bytes and modification time. -/
structure FileEntry where
  path : List Seg
  size : Nat
  mtime : Nat
deriving DecidableEq

/-- The filesystem: regular files, directories, and paths `os.remove`
refuses to delete (modelling `PermissionError`). -/
structure FS where
  files : List FileEntry
  dirs : List (List Seg)
  locked : List (List Seg)
deriving DecidableEq

/-- Model of `os.path.exists` on a resolved absolute path. -/
def FS.pathExists (fs : FS) (p : List Seg) : Bool :=
  fs.files.any (fun e => decide (e.path = p)) || decide (p ∈ fs.dirs)

/-- Model of `os.path.isfile` on a resolved absolute path. -/
def FS.isFile (fs : FS) (p : List Seg) : Bool :=
  fs.files.any (fun e => decide (e.path = p))

/-- Model of `os.path.getsize` (0 when absent; the code only asks for listed files). -/
def FS.sizeAt (fs : FS) (p : List Seg) : Nat :=
  ((fs.files.find? (fun e => decide (e.path = p))).map FileEntry.size).getD 0

/-- Model of `os.path.getmtime` (0 when absent; the code only asks for listed files). -/
def FS.mtimeAt (fs : FS) (p : List Seg) : Nat :=
  ((fs.files.find? (fun e => decide (e.path = p))).map FileEntry.mtime).getD 0

/-- The filesystem with the file entries at path `p` dropped; directories
and the locked set are untouched. -/
def FS.withoutPath (fs : FS) (p : List Seg) : FS :=
  { fs with files := fs.files.filter (fun e => decide (e.path ≠ p)) }

/-- Model of `os.remove`: fails (with `PermissionError`) on locked paths, otherwise
drops the file entries at that path. -/
def FS.removeFile (fs : FS) (p : List Seg) : Except Unit FS :=
  if p ∈ fs.locked then .error ()
  else .ok (fs.withoutPath p)

/-- The name under which path `p` appears as a direct child of directory
`d`, if it is one. -/
def childName (d p : List Seg) : Option Seg :=
  if p.dropLast = d then p.getLast? else none

/-- Model of `os.listdir d`: names of direct children (files first, then
directories — `os.listdir`'s order is unspecified, this fixes one). -/
def FS.listdir (fs : FS) (d : List Seg) : List Seg :=
  fs.files.filterMap (fun e => childName d e.path) ++ fs.dirs.filterMap (childName d)

/-! ### File-store endpoints -/

/-- Outcomes of `delete_file`, in the order its checks appear. -/
inductive DeleteResult
  | invalidName
  | forbiddenName
  | pathEscape
  | notFound
  | invalidTarget
  | permissionDenied
  | deleted
deriving DecidableEq

/-- Function `delete_file` from `src/app.py` (lines 157-223), as a function of the
caller-supplied name, the working directory and the filesystem; returns
the outcome and the (possibly updated) filesystem. -/
def delete_file (cwd : List Seg) (fs : FS) (filename : PyStr) : DeleteResult × FS :=
  if filename = [] ∨ pyStrip filename = [] then (.invalidName, fs)
  else if ('/' ∈ filename) ∨ ('\\' ∈ filename) ∨ (['.', '.'] <:+: filename) ∨
      filename.head? = some '.' then (.forbiddenName, fs)
  else
    let file_path := pyJoin DOWNLOADS_DIR filename
    let downloads_abs_path := segsToStr (absSegs cwd DOWNLOADS_DIR)
    let file_abs_path := segsToStr (absSegs cwd file_path)
    if ¬ withinStore downloads_abs_path file_abs_path then (.pathEscape, fs)
    else if ¬ fs.pathExists (absSegs cwd file_path) then (.notFound, fs)
    else if ¬ fs.isFile (absSegs cwd file_path) then (.invalidTarget, fs)
    else
      match fs.removeFile (absSegs cwd file_path) with
      | .error _ => (.permissionDenied, fs)
      | .ok fs2 => (.deleted, fs2)

/-- Outcome of `download_file` (serving): the resolved path that is served,
or the flash-and-redirect branch. -/
inductive ServeResult
  | served (p : List Seg)
  | redirectNotFound
deriving DecidableEq

/-- Function `download_file` from `src/app.py` (lines 146-154): join the caller's
name onto the store directory and serve whatever exists there — there is
no containment check in this route. -/
def download_file (cwd : List Seg) (fs : FS) (filename : PyStr) : ServeResult :=
  let file_path := pyJoin DOWNLOADS_DIR filename
  if fs.pathExists (absSegs cwd file_path) then .served (absSegs cwd file_path)
  else .redirectNotFound

/-- One row of the `list_downloads` response. -/
structure ListingEntry where
  name : Seg
  size : Nat
deriving DecidableEq

/-- Function `list_downloads` from `src/app.py` (lines 226-239). -/
def list_downloads (cwd : List Seg) (fs : FS) : List ListingEntry :=
  let dAbs := absSegs cwd DOWNLOADS_DIR
  if fs.pathExists dAbs then
    (fs.listdir dAbs).filterMap (fun n =>
      let p := absSegs cwd (pyJoin DOWNLOADS_DIR n)
      if fs.isFile p then some ⟨n, fs.sizeAt p⟩ else none)
  else []

/-! ### Download orchestrator -/

/-- The metadata record `extract_info` returns (`None` handled by the
caller); only the title is consulted. -/
structure YInfo where
  title : Option PyStr
deriving DecidableEq

/-- The `yt_dlp` collaborator, abstracted: its metadata answer, the
extension it chooses for `prepare_filename`, and the filesystem effect of
its download call — each fallible with a message (the exception's `str`). -/
structure Extractor where
  info : Except PyStr (Option YInfo)
  ext : PyStr
  runDownload : FS → Except PyStr FS

/-- The JSON outcome of `download_video`. -/
inductive DLResult
  | success (message filename download_url : PyStr)
  | failure (message : PyStr)
deriving DecidableEq

/-- The success message `f'Video "{title}" downloaded successfully!'`. -/
def successMsg (title : PyStr) : PyStr :=
  "Video ".toList ++ quoteChar :: (title ++ quoteChar :: " downloaded successfully!".toList)

/-- The retrieval path `f'/download_file/{name}'`. -/
def dlUrl (name : PyStr) : PyStr := "/download_file/".toList ++ name

/-- Model of `os.path.basename`: the part after the last separator. -/
def pyBasename (s : PyStr) : PyStr := ((splitPath s).getLast?).getD []

/-- The sort key of the fallback (lines 118-120): the modification time of
the named entry inside the store directory. -/
def mtimeKey (cwd : List Seg) (fs : FS) (n : Seg) : Nat :=
  fs.mtimeAt (absSegs cwd (pyJoin DOWNLOADS_DIR n))

/-- Python `max(files, key=mtime)` over names in the store directory: the
first element with maximal key in iteration order (Python's `max` replaces
the running maximum only on a strictly greater key). -/
def pyMaxByMtime (cwd : List Seg) (fs : FS) : List Seg → Option Seg
  | [] => none
  | n :: ns =>
    some (ns.foldl (fun best x =>
      if mtimeKey cwd fs x > mtimeKey cwd fs best then x else best) n)

/-- Expression `info.get('title', 'Unknown') if info else 'Unknown'` (line 82). -/
def titleOf (info : Option YInfo) : PyStr :=
  match info with
  | none => "Unknown".toList
  | some i => i.title.getD "Unknown".toList

/-- Expression `video_title.replace(' ', '_').replace('/', '-')` (line 86). -/
def sanitizedTitle (t : PyStr) : PyStr :=
  (t.map (fun c => if c = ' ' then '_' else c)).map
    (fun c => if c = '/' then '-' else c)

/-- The expected output path `prepare_filename` yields once the template is
`os.path.join(DOWNLOADS_DIR, f'{sanitized_title}.%(ext)s')` (lines 87-91):
the sanitized title plus the collaborator-chosen extension, inside the
store directory. -/
def expectedFile (ydl : Extractor) (info : Option YInfo) : PyStr :=
  pyJoin DOWNLOADS_DIR (sanitizedTitle (titleOf info) ++ '.' :: ydl.ext)

/-- The fallback candidate list (lines 112-115): regular files among the
store directory's entries. -/
def storeFiles (cwd : List Seg) (fs : FS) : List Seg :=
  (fs.listdir (absSegs cwd DOWNLOADS_DIR)).filter
    (fun n => fs.isFile (absSegs cwd (pyJoin DOWNLOADS_DIR n)))

/-- Function `download_video` from `src/app.py` (lines 63-143): validate the input,
ask the collaborator for metadata, derive the sanitized expected filename,
run the download, then reconcile the expected name against the store
directory; every collaborator failure is caught and wrapped. -/
def download_video (video_input : PyStr) (ydl : Extractor) (cwd : List Seg)
    (fs : FS) : DLResult × FS :=
  match validate_youtube_input video_input with
  | .error e => (.failure ("Error downloading video: ".toList ++ e), fs)
  | .ok _video_url =>
    match ydl.info with
    | .error e => (.failure ("Error downloading video: ".toList ++ e), fs)
    | .ok info =>
      let video_title := titleOf info
      let expected_filename := expectedFile ydl info
      let expected_basename := pyBasename expected_filename
      match ydl.runDownload fs with
      | .error e => (.failure ("Error downloading video: ".toList ++ e), fs)
      | .ok fs2 =>
        if fs2.pathExists (absSegs cwd expected_filename) then
          (.success (successMsg video_title) expected_basename (dlUrl expected_basename), fs2)
        else
          match pyMaxByMtime cwd fs2 (storeFiles cwd fs2) with
          | some newest_file =>
            (.success (successMsg video_title) newest_file (dlUrl newest_file), fs2)
          | none =>
            (.failure "Video was downloaded but file could not be located".toList, fs2)

/-! ### Abbreviations for the delete route's derived values -/

/-- The resolved absolute target of a delete/serve request:
`os.path.abspath(os.path.join(DOWNLOADS_DIR, name))` as segments. -/
def deleteTarget (cwd : List Seg) (name : PyStr) : List Seg :=
  absSegs cwd (pyJoin DOWNLOADS_DIR name)

/-- Value `os.path.abspath(DOWNLOADS_DIR)` as a string. -/
def storeAbs (cwd : List Seg) : PyStr := segsToStr (absSegs cwd DOWNLOADS_DIR)

/-- The forbidden-name test of `delete_file` (lines 169-170). -/
def forbiddenName (name : PyStr) : Prop :=
  ('/' ∈ name) ∨ ('\\' ∈ name) ∨ (['.', '.'] <:+: name) ∨ name.head? = some '.'

instance (name : PyStr) : Decidable (forbiddenName name) := by
  unfold forbiddenName; infer_instance

/-! ### Concrete fixtures used by witnesses and counterexamples -/

/-- Example working directory `/srv`. -/
def exCwd : List Seg := [['s', 'r', 'v']]

/-- Path `/srv/downloads` as segments. -/
def exStore : List Seg := [['s', 'r', 'v'], "downloads".toList]

/-- A store holding one regular file `a.mp4`. -/
def exFS : FS :=
  { files := [⟨exStore ++ ["a.mp4".toList], 100, 5⟩]
    dirs := [[['s', 'r', 'v']], exStore, [['e', 't', 'c']]]
    locked := [] }

/-- A filesystem with `/etc/passwd` outside the (empty) store. -/
def exEscFS : FS :=
  { files := [⟨[['e', 't', 'c'], "passwd".toList], 42, 1⟩]
    dirs := [[['s', 'r', 'v']], exStore, [['e', 't', 'c']]]
    locked := [] }

/-- An empty store. -/
def exEmptyFS : FS :=
  { files := [], dirs := [[['s', 'r', 'v']], exStore], locked := [] }

/-- Metadata with title `X`. -/
def exInfoX : Option YInfo := some ⟨some ['X']⟩

/-- A collaborator that succeeds without writing anything. -/
def exNoopExtractor : Extractor :=
  ⟨.ok exInfoX, "mp4".toList, fun fs => .ok fs⟩

/-- A collaborator whose metadata call raises `Video unavailable`. -/
def exFailExtractor : Extractor :=
  ⟨.error "Video unavailable".toList, "mp4".toList, fun fs => .ok fs⟩

/-- A collaborator that reports title `X` but writes `X_1.mp4`. -/
def exWriteExtractor : Extractor :=
  ⟨.ok exInfoX, "mp4".toList, fun fs =>
    .ok { fs with files := fs.files ++ [⟨exStore ++ ["X_1.mp4".toList], 10, 9⟩] }⟩

/-! ## Helper lemmas: `pyStrip` -/

theorem pyStrip_sublist (s : PyStr) : List.Sublist (pyStrip s) s :=
  ((List.rdropWhile_prefix isPySpace _).sublist).trans
    ((List.dropWhile_suffix isPySpace).sublist)

theorem mem_of_mem_pyStrip {c : Char} {s : PyStr} (h : c ∈ pyStrip s) : c ∈ s :=
  (pyStrip_sublist s).subset h

theorem mem_dropWhile_of_neg {α : Type} {p : α → Bool} {c : α} {l : List α}
    (hc : c ∈ l) (hp : p c = false) : c ∈ l.dropWhile p := by
  induction l with
  | nil => cases hc
  | cons a t ih =>
    by_cases ha : p a
    · rw [List.dropWhile_cons_of_pos ha]
      rcases List.mem_cons.mp hc with h | h
      · subst h; rw [hp] at ha; cases ha
      · exact ih h
    · rw [List.dropWhile_cons_of_neg ha]
      exact hc

theorem mem_pyStrip_of_neg {c : Char} {s : PyStr} (hc : c ∈ s)
    (hp : isPySpace c = false) : c ∈ pyStrip s := by
  unfold pyStrip List.rdropWhile
  rw [List.mem_reverse]
  exact mem_dropWhile_of_neg (by rw [List.mem_reverse]; exact mem_dropWhile_of_neg hc hp) hp

theorem dropWhile_eq_self_of_front {α : Type} {p : α → Bool} {l m : List α}
    (hl : l.dropWhile p = l) (hm : m <+: l) : m.dropWhile p = m := by
  cases m with
  | nil => rfl
  | cons a t =>
    obtain ⟨r, hr⟩ := hm
    cases l with
    | nil => cases hr
    | cons b u =>
      have hab : a = b := by
        have := congrArg List.head? hr
        simpa using this
      subst hab
      by_cases hpa : p a
      · exfalso
        rw [List.dropWhile_cons_of_pos hpa] at hl
        have hle : (u.dropWhile p).length ≤ u.length :=
          (List.dropWhile_suffix p).sublist.length_le
        rw [hl] at hle
        simp at hle
      · rw [List.dropWhile_cons_of_neg hpa]

theorem pyStrip_idem (s : PyStr) : pyStrip (pyStrip s) = pyStrip s := by
  unfold pyStrip
  rw [dropWhile_eq_self_of_front (List.dropWhile_idempotent _ _)
    (List.rdropWhile_prefix _ _), List.rdropWhile_idempotent]

theorem dropWhile_reverse_pyStrip (s : PyStr) :
    (pyStrip s).reverse.dropWhile isPySpace = (pyStrip s).reverse := by
  unfold pyStrip List.rdropWhile
  rw [List.reverse_reverse]
  exact List.dropWhile_idempotent _ _

theorem pyStrip_const_append (c x : PyStr)
    (hc : c.dropWhile isPySpace = c)
    (hcr : c.reverse.dropWhile isPySpace = c.reverse) (hcne : c ≠ []) :
    pyStrip (c ++ pyStrip x) = c ++ pyStrip x := by
  have hcE : c.isEmpty = false := by
    cases c
    · cases hcne rfl
    · rfl
  have hxfix : (pyStrip x).reverse.dropWhile isPySpace = (pyStrip x).reverse :=
    dropWhile_reverse_pyStrip x
  set u := pyStrip x with hu
  have h1 : (c ++ u).dropWhile isPySpace = c ++ u := by
    rw [List.dropWhile_append, hc, hcE]
    simp
  show pyStrip (c ++ u) = c ++ u
  unfold pyStrip
  rw [h1]
  unfold List.rdropWhile
  rw [List.reverse_append, List.dropWhile_append]
  by_cases hx : u = []
  · rw [hx]
    simp only [List.reverse_nil, List.nil_append, List.isEmpty_nil, List.dropWhile_nil,
      if_true, hcr]
    simp
  · rw [hxfix]
    have hxE : u.reverse.isEmpty = false := by
      cases hrev : u.reverse
      · exact absurd (by simpa using hrev) hx
      · rfl
    rw [hxE]
    simp

/-! ## Helper lemmas: the normalizer -/

theorem normalize_youtube_url_def (x : PyStr) :
    normalize_youtube_url x =
      if httpPre.isPrefixOf (pyStrip x) = true ∨ httpsPre.isPrefixOf (pyStrip x) = true then
        pyStrip x
      else if (pyStrip x).length = 11 ∧
          pyIsAlnum (((pyStrip x).filter (fun c => c != '-')).filter (fun c => c != '_')) = true then
        watchPre ++ pyStrip x
      else if ytDotCom <:+: pyStrip x ∨ ytDotBe <:+: pyStrip x then
        if ¬ (httpPre.isPrefixOf (pyStrip x) = true ∨ httpsPre.isPrefixOf (pyStrip x) = true) then
          httpsPre ++ pyStrip x
        else pyStrip x
      else watchPre ++ pyStrip x := rfl

theorem normalize_of_scheme {y : PyStr}
    (h : httpPre.isPrefixOf (pyStrip y) = true ∨ httpsPre.isPrefixOf (pyStrip y) = true) :
    normalize_youtube_url y = pyStrip y := by
  rw [normalize_youtube_url_def, if_pos h]

theorem normalize_shape (x : PyStr) :
    normalize_youtube_url x = pyStrip x ∨
    normalize_youtube_url x = watchPre ++ pyStrip x ∨
    normalize_youtube_url x = httpsPre ++ pyStrip x := by
  rw [normalize_youtube_url_def]
  split_ifs <;> simp

theorem normalize_starts (x : PyStr) :
    httpPre.isPrefixOf (normalize_youtube_url x) = true ∨
    httpsPre.isPrefixOf (normalize_youtube_url x) = true := by
  have hw : httpsPre.isPrefixOf (watchPre ++ pyStrip x) = true := by
    rw [List.isPrefixOf_iff_prefix]
    exact (show httpsPre <+: watchPre by decide).trans (List.prefix_append _ _)
  have hh : httpsPre.isPrefixOf (httpsPre ++ pyStrip x) = true := by
    rw [List.isPrefixOf_iff_prefix]
    exact List.prefix_append _ _
  rw [normalize_youtube_url_def]
  split_ifs with h1 h2 h3
  · exact h1
  · exact Or.inr hw
  · exact Or.inr hh
  · exact Or.inr hw

/-- C9: the URL normalization step is idempotent — every output of
`normalize_youtube_url` starts with an explicit scheme and carries no
surrounding whitespace, so a second application returns it unchanged. -/
theorem C9_normalize_idempotent (x : PyStr) :
    normalize_youtube_url (normalize_youtube_url x) = normalize_youtube_url x := by
  have hfix : pyStrip (normalize_youtube_url x) = normalize_youtube_url x := by
    rcases normalize_shape x with h | h | h <;> rw [h]
    · exact pyStrip_idem x
    · exact pyStrip_const_append watchPre x (by decide) (by decide) (by decide)
    · exact pyStrip_const_append httpsPre x (by decide) (by decide) (by decide)
  have hpre := normalize_starts x
  rw [normalize_of_scheme (by rw [hfix]; exact hpre), hfix]

theorem validate_youtube_input_def (x : PyStr) :
    validate_youtube_input x =
      if x = [] ∨ pyStrip x = [] then
        .error "Please enter a YouTube video ID or URL".toList
      else if forbiddenChars.any (fun c => decide (c ∈ pyStrip x)) = true then
        .error "Invalid characters in URL".toList
      else if (pyStrip x).length > 2048 then
        .error "URL too long".toList
      else
        .ok (normalize_youtube_url (pyStrip x)) := rfl

theorem allowed_not_space {c : Char}
    (h : pyIsAlnumChar c = true ∨ c = '-' ∨ c = '_') : isPySpace c = false := by
  by_contra hsp
  rw [Bool.not_eq_false] at hsp
  simp only [isPySpace, Bool.or_eq_true, decide_eq_true_eq] at hsp
  rcases hsp with ((((rfl | rfl) | rfl) | rfl) | rfl) | rfl <;> revert h <;> decide

theorem pyStrip_eq_self_of_all {l : PyStr} (hall : ∀ c ∈ l, isPySpace c = false) :
    pyStrip l = l := by
  unfold pyStrip
  have hd : l.dropWhile isPySpace = l := by
    cases l with
    | nil => rfl
    | cons a t =>
      rw [List.dropWhile_cons_of_neg (by simp [hall a (List.mem_cons_self a t)])]
  rw [hd]
  exact List.rdropWhile_eq_self_iff.mpr
    (fun hl => by simp [hall _ (List.getLast_mem hl)])

/-- C5: for every 11-character string over alphanumerics, `-` and `_`, the
normalizer returns exactly the canonical watch URL with the identifier
appended. -/
theorem C5_id_to_watch_url (id : PyStr) (h1 : id.length = 11)
    (h2 : ∀ c ∈ id, pyIsAlnumChar c = true ∨ c = '-' ∨ c = '_') :
    validate_youtube_input id = .ok (watchPre ++ id) := by
  have hne : id ≠ [] := by intro h; rw [h] at h1; cases h1
  have hstrip : pyStrip id = id :=
    pyStrip_eq_self_of_all (fun c hc => allowed_not_space (h2 c hc))
  have hforb : forbiddenChars.any (fun c => decide (c ∈ pyStrip id)) = false := by
    rw [hstrip, Bool.eq_false_iff]
    intro hany
    rw [List.any_eq_true] at hany
    obtain ⟨c, hcmem, hcid⟩ := hany
    rw [decide_eq_true_eq] at hcid
    have hc := h2 c hcid
    fin_cases hcmem <;> revert hc <;> decide
  have hnopre : ¬ (httpPre.isPrefixOf id = true ∨ httpsPre.isPrefixOf id = true) := by
    rintro (hp | hp) <;> rw [List.isPrefixOf_iff_prefix] at hp
    · have hmem : ':' ∈ id := hp.sublist.subset (by decide)
      have hc := h2 _ hmem; revert hc; decide
    · have hmem : ':' ∈ id := hp.sublist.subset (by decide)
      have hc := h2 _ hmem; revert hc; decide
  have hnoyt : ¬ (ytDotCom <:+: id ∨ ytDotBe <:+: id) := by
    rintro (hp | hp)
    · have hmem : '.' ∈ id := hp.sublist.subset (by decide)
      have hc := h2 _ hmem; revert hc; decide
    · have hmem : '.' ∈ id := hp.sublist.subset (by decide)
      have hc := h2 _ hmem; revert hc; decide
  rw [validate_youtube_input_def,
    if_neg (by rw [not_or]; exact ⟨hne, by rw [hstrip]; exact hne⟩),
    if_neg (by rw [hforb]; simp),
    if_neg (by rw [hstrip, h1]; decide)]
  simp only [Except.ok.injEq]
  rw [normalize_youtube_url_def]
  simp only [hstrip]
  rw [if_neg hnopre]
  by_cases hC : id.length = 11 ∧
    pyIsAlnum ((id.filter (fun c => c != '-')).filter (fun c => c != '_')) = true
  · rw [if_pos hC]
  · rw [if_neg hC, if_neg hnoyt]

/-- Witness for C5 at the concrete identifier `abcdefghij0`. -/
theorem C5_id_to_watch_url_witness :
    ("abcdefghij0".toList : PyStr).length = 11 ∧
    validate_youtube_input "abcdefghij0".toList =
      .ok (watchPre ++ "abcdefghij0".toList) :=
  ⟨by decide, C5_id_to_watch_url _ (by decide) (by decide)⟩

/-- C6 (amended): for every input that passes the rejection rules and whose
trimmed form starts with `http://` or `https://`, the normalizer returns
the TRIMMED input (equal to the input itself exactly when the input has no
surrounding whitespace). -/
theorem C6_amended_scheme_unchanged (s : PyStr)
    (h0 : pyStrip s ≠ [])
    (h1 : forbiddenChars.any (fun c => decide (c ∈ pyStrip s)) = false)
    (h2 : (pyStrip s).length ≤ 2048)
    (h3 : httpPre.isPrefixOf (pyStrip s) = true ∨ httpsPre.isPrefixOf (pyStrip s) = true) :
    validate_youtube_input s = .ok (pyStrip s) := by
  rw [validate_youtube_input_def,
    if_neg (by rw [not_or]; exact ⟨fun h => h0 (by rw [h]; rfl), h0⟩),
    if_neg (by rw [h1]; simp),
    if_neg (by omega)]
  simp only [Except.ok.injEq]
  have hns := normalize_of_scheme (by rw [pyStrip_idem]; exact h3)
  rw [hns]
  exact pyStrip_idem s

/-- Witness for C6's amended statement at `'https://a '` (trailing space):
the returned locator is the trimmed input. -/
theorem C6_amended_scheme_unchanged_witness :
    pyStrip "https://a ".toList ≠ [] ∧
    validate_youtube_input "https://a ".toList = .ok (pyStrip "https://a ".toList) :=
  ⟨by decide, C6_amended_scheme_unchanged _ (by decide) (by decide) (by decide)
    (Or.inr (by decide))⟩

/-- C6 counterexample: `'https://a '` starts with `https://` and passes the
rejection rules, yet the normalizer returns the trimmed string, which
differs from the input. -/
theorem C6_counterexample :
    httpsPre.isPrefixOf "https://a ".toList = true ∧
    validate_youtube_input "https://a ".toList = .ok "https://a".toList ∧
    ("https://a".toList : PyStr) ≠ "https://a ".toList :=
  ⟨by decide, by decide, by decide⟩

/-- C4 (amended): validation fails exactly when the input is empty or
whitespace-only, contains a forbidden character, or its TRIMMED form
exceeds 2048 characters (the code measures the length after stripping). -/
theorem C4_amended_reject_iff (s : PyStr) :
    (∃ e, validate_youtube_input s = .error e) ↔
      (pyStrip s = [] ∨ (∃ c ∈ forbiddenChars, c ∈ s) ∨ 2048 < (pyStrip s).length) := by
  have hforbs : ∀ c ∈ forbiddenChars, isPySpace c = false := by decide
  have hmem : (forbiddenChars.any (fun c => decide (c ∈ pyStrip s)) = true) ↔
      (∃ c ∈ forbiddenChars, c ∈ s) := by
    rw [List.any_eq_true]
    constructor
    · rintro ⟨c, hc, hcs⟩
      exact ⟨c, hc, mem_of_mem_pyStrip (of_decide_eq_true hcs)⟩
    · rintro ⟨c, hc, hcs⟩
      exact ⟨c, hc, decide_eq_true (mem_pyStrip_of_neg hcs (hforbs c hc))⟩
  rw [validate_youtube_input_def]
  by_cases h0 : s = [] ∨ pyStrip s = []
  · rw [if_pos h0]
    refine ⟨fun _ => Or.inl ?_, fun _ => ⟨_, rfl⟩⟩
    rcases h0 with rfl | h
    · rfl
    · exact h
  · rw [if_neg h0]
    by_cases hfb : forbiddenChars.any (fun c => decide (c ∈ pyStrip s)) = true
    · rw [if_pos hfb]
      exact ⟨fun _ => Or.inr (Or.inl (hmem.mp hfb)), fun _ => ⟨_, rfl⟩⟩
    · rw [if_neg hfb]
      by_cases hlen : (pyStrip s).length > 2048
      · rw [if_pos hlen]
        exact ⟨fun _ => Or.inr (Or.inr hlen), fun _ => ⟨_, rfl⟩⟩
      · rw [if_neg hlen]
        constructor
        · rintro ⟨e, he⟩
          simp at he
        · rintro (h | h | h)
          · exact absurd (Or.inr h) h0
          · exact absurd (hmem.mpr h) hfb
          · exact absurd h hlen

/-- Witness for C4's amended statement: `'a<b'` is rejected because it
contains a forbidden character. -/
theorem C4_amended_reject_iff_witness :
    ∃ e, validate_youtube_input "a<b".toList = .error e :=
  (C4_amended_reject_iff "a<b".toList).mpr
    (Or.inr (Or.inl ⟨'<', by decide, by decide⟩))

/-! ## Replicate helpers for the long-input counterexamples -/

theorem dropWhile_replicate_a (n : Nat) :
    (List.replicate n 'a').dropWhile isPySpace = List.replicate n 'a' := by
  cases n with
  | zero => rfl
  | succ m => rw [List.replicate_succ, List.dropWhile_cons_of_neg (by decide)]

theorem rdropWhile_replicate_a (n : Nat) :
    (List.replicate n 'a').rdropWhile isPySpace = List.replicate n 'a' :=
  List.rdropWhile_eq_self_iff.mpr (fun hl => by rw [List.getLast_replicate]; decide)

theorem pyStrip_replicate_a (n : Nat) :
    pyStrip (List.replicate n 'a') = List.replicate n 'a' := by
  unfold pyStrip
  rw [dropWhile_replicate_a, rdropWhile_replicate_a]

theorem pyStrip_replicate_a_space (n : Nat) :
    pyStrip (List.replicate n 'a' ++ [' ']) = List.replicate n 'a' := by
  cases n with
  | zero => decide
  | succ m =>
    unfold pyStrip
    rw [List.dropWhile_append, dropWhile_replicate_a]
    have hE : (List.replicate (m + 1) 'a').isEmpty = false := by
      rw [List.replicate_succ]; rfl
    rw [hE]
    simp only [Bool.false_eq_true, if_false]
    rw [List.rdropWhile_concat_pos isPySpace _ ' ' (by decide), rdropWhile_replicate_a]

theorem validate_of_strip_replicate_a (s : PyStr) (n : Nat) (h0 : n ≠ 0)
    (h11 : n ≠ 11) (h2 : n ≤ 2048)
    (hstrip : pyStrip s = List.replicate n 'a') :
    validate_youtube_input s = .ok (watchPre ++ List.replicate n 'a') := by
  have hrne : List.replicate n 'a' ≠ [] := by
    intro h
    apply h0
    simpa using congrArg List.length h
  have hsne : s ≠ [] := by
    intro h
    rw [h] at hstrip
    exact hrne hstrip.symm
  have hforb : ¬ (forbiddenChars.any (fun c => decide (c ∈ pyStrip s)) = true) := by
    rw [hstrip, List.any_eq_true]
    rintro ⟨c, hc, hcs⟩
    rw [decide_eq_true_eq] at hcs
    have hca := List.eq_of_mem_replicate hcs
    subst hca
    revert hc
    decide
  have hlen : ¬ ((pyStrip s).length > 2048) := by
    rw [hstrip, List.length_replicate]
    omega
  have hnopre : ¬ (httpPre.isPrefixOf (List.replicate n 'a') = true ∨
      httpsPre.isPrefixOf (List.replicate n 'a') = true) := by
    rintro (hp | hp) <;> rw [List.isPrefixOf_iff_prefix] at hp
    · exact absurd (List.eq_of_mem_replicate
        (hp.sublist.subset (show 'h' ∈ httpPre by decide))) (by decide)
    · exact absurd (List.eq_of_mem_replicate
        (hp.sublist.subset (show 'h' ∈ httpsPre by decide))) (by decide)
  have hnoyt : ¬ (ytDotCom <:+: List.replicate n 'a' ∨
      ytDotBe <:+: List.replicate n 'a') := by
    rintro (hp | hp)
    · exact absurd (List.eq_of_mem_replicate
        (hp.sublist.subset (show '.' ∈ ytDotCom by decide))) (by decide)
    · exact absurd (List.eq_of_mem_replicate
        (hp.sublist.subset (show '.' ∈ ytDotBe by decide))) (by decide)
  have hC : ¬ ((List.replicate n 'a').length = 11 ∧
      pyIsAlnum (((List.replicate n 'a').filter (fun c => c != '-')).filter
        (fun c => c != '_')) = true) :=
    fun h => h11 (by simpa using h.1)
  rw [validate_youtube_input_def,
    if_neg (by rw [not_or]; exact ⟨hsne, by rw [hstrip]; exact hrne⟩),
    if_neg hforb, if_neg hlen]
  simp only [Except.ok.injEq]
  rw [normalize_youtube_url_def]
  simp only [pyStrip_idem, hstrip, pyStrip_replicate_a]
  rw [if_neg hnopre, if_neg hC, if_neg hnoyt]

/-- C4 counterexample: the raw input `'a' * 2048 + ' '` has 2049 characters
— more than 2048 — yet validation accepts it, because the length check runs
on the stripped input. -/
theorem C4_counterexample :
    (List.replicate 2048 'a' ++ [' '] : PyStr).length > 2048 ∧
    validate_youtube_input (List.replicate 2048 'a' ++ [' ']) =
      .ok (watchPre ++ List.replicate 2048 'a') := by
  constructor
  · rw [List.length_append, List.length_replicate]
    decide
  · exact validate_of_strip_replicate_a _ 2048 (by decide) (by decide) (by decide)
      (pyStrip_replicate_a_space 2048)

/-- C3 counterexample: the accepted input `'a' * 2048` produces the locator
`watch URL prefix + input` of length 2080, violating the claimed 2048-code-
unit bound. -/
theorem C3_counterexample :
    validate_youtube_input (List.replicate 2048 'a') =
      .ok (watchPre ++ List.replicate 2048 'a') ∧
    (watchPre ++ List.replicate 2048 'a').length > 2048 := by
  constructor
  · exact validate_of_strip_replicate_a _ 2048 (by decide) (by decide) (by decide)
      (pyStrip_replicate_a 2048)
  · rw [List.length_append, List.length_replicate]
    decide

/-- C3 (amended): every accepted input yields a locator that starts with an
explicit scheme and contains no forbidden character; its length is bounded
by 2080 (trimmed input of at most 2048 plus the 32-character watch-URL
prefix), not by 2048 as claimed. -/
theorem C3_amended_locator_invariant (s out : PyStr)
    (h : validate_youtube_input s = .ok out) :
    (httpPre.isPrefixOf out = true ∨ httpsPre.isPrefixOf out = true) ∧
    (∀ c ∈ forbiddenChars, c ∉ out) ∧ out.length ≤ 2080 := by
  rw [validate_youtube_input_def] at h
  by_cases h0 : s = [] ∨ pyStrip s = []
  · rw [if_pos h0] at h
    simp at h
  · rw [if_neg h0] at h
    by_cases hfb : forbiddenChars.any (fun c => decide (c ∈ pyStrip s)) = true
    · rw [if_pos hfb] at h
      simp at h
    · rw [if_neg hfb] at h
      by_cases hlen : (pyStrip s).length > 2048
      · rw [if_pos hlen] at h
        simp at h
      · rw [if_neg hlen] at h
        simp only [Except.ok.injEq] at h
        subst h
        have hsh := normalize_shape (pyStrip s)
        rw [pyStrip_idem] at hsh
        refine ⟨normalize_starts _, ?_, ?_⟩
        · intro c hc hcout
          have hnot : c ∉ pyStrip s := fun hmem =>
            hfb (List.any_eq_true.mpr ⟨c, hc, decide_eq_true hmem⟩)
          rcases hsh with hsh | hsh | hsh <;> rw [hsh] at hcout
          · exact hnot hcout
          · rcases List.mem_append.mp hcout with hm | hm
            · revert hm; fin_cases hc <;> decide
            · exact hnot hm
          · rcases List.mem_append.mp hcout with hm | hm
            · revert hm; fin_cases hc <;> decide
            · exact hnot hm
        · have hwl : watchPre.length = 32 := by decide
          have hhl : httpsPre.length = 8 := by decide
          rcases hsh with hsh | hsh | hsh <;> rw [hsh]
          · omega
          · rw [List.length_append, hwl]; omega
          · rw [List.length_append, hhl]; omega

/-- Witness for C3's amended statement at the accepted input `'abc'`. -/
theorem C3_amended_locator_invariant_witness :
    validate_youtube_input "abc".toList = .ok (watchPre ++ "abc".toList) ∧
    ((httpPre.isPrefixOf (watchPre ++ "abc".toList) = true ∨
      httpsPre.isPrefixOf (watchPre ++ "abc".toList) = true) ∧
     (∀ c ∈ forbiddenChars, c ∉ (watchPre ++ "abc".toList)) ∧
     (watchPre ++ "abc".toList).length ≤ 2080) :=
  ⟨by decide, C3_amended_locator_invariant "abc".toList (watchPre ++ "abc".toList) (by decide)⟩

/-! ## Helper lemmas: the path model -/

theorem splitPath_cons (c : Char) (t : PyStr) :
    splitPath (c :: t) =
      if c = '/' then [] :: splitPath t
      else
        match splitPath t with
        | [] => [[c]]
        | h :: ts => (c :: h) :: ts := rfl

theorem splitPath_ne_nil (s : PyStr) : splitPath s ≠ [] := by
  induction s with
  | nil => exact fun h => by cases h
  | cons c t ih =>
    rw [splitPath_cons]
    by_cases hc : c = '/'
    · rw [if_pos hc]; exact fun h => by cases h
    · rw [if_neg hc]
      cases hsp : splitPath t with
      | nil => exact fun h => by cases h
      | cons h ts => exact fun h => by cases h

theorem splitPath_no_sep {s : PyStr} (h : '/' ∉ s) : splitPath s = [s] := by
  induction s with
  | nil => rfl
  | cons c t ih =>
    rw [splitPath_cons,
      if_neg (fun hc => h (by subst hc; exact List.mem_cons_self _ _)),
      ih (fun hm => h (List.mem_cons_of_mem c hm))]

theorem splitPath_append_sep (a b : PyStr) :
    splitPath (a ++ '/' :: b) = splitPath a ++ splitPath b := by
  induction a with
  | nil =>
    rw [List.nil_append, splitPath_cons, if_pos rfl]
    rfl
  | cons c t ih =>
    rw [List.cons_append, splitPath_cons, splitPath_cons, ih]
    by_cases hc : c = '/'
    · rw [if_pos hc, if_pos hc]
      rfl
    · rw [if_neg hc, if_neg hc]
      cases hsp : splitPath t with
      | nil => exact absurd hsp (splitPath_ne_nil t)
      | cons h ts => rfl

theorem foldl_normStep_valid (t : List Seg) : ∀ acc : List Seg,
    (∀ seg ∈ t, seg ≠ [] ∧ seg ≠ ['.'] ∧ seg ≠ ['.', '.']) →
    t.foldl normStep acc = acc ++ t := by
  induction t with
  | nil => intro acc _; rw [List.foldl_nil, List.append_nil]
  | cons s ts ih =>
    intro acc h
    have hs := h s (List.mem_cons_self s ts)
    rw [List.foldl_cons]
    have hstep : normStep acc s = acc ++ [s] := by
      unfold normStep
      rw [if_neg (by rw [not_or]; exact ⟨hs.1, hs.2.1⟩), if_neg hs.2.2]
    rw [hstep, ih (acc ++ [s]) (fun seg hm => h seg (List.mem_cons_of_mem s hm)),
      List.append_assoc]
    rfl

theorem normSegs_valid (t : List Seg)
    (h : ∀ seg ∈ t, seg ≠ [] ∧ seg ≠ ['.'] ∧ seg ≠ ['.', '.']) :
    normSegs t = t := by
  unfold normSegs
  rw [foldl_normStep_valid t [] h, List.nil_append]

theorem absSegs_downloads (cwd : List Seg) (hcwd : ∀ seg ∈ cwd, validSeg seg) :
    absSegs cwd DOWNLOADS_DIR = cwd ++ [DOWNLOADS_DIR] := by
  unfold absSegs
  rw [if_neg (by decide), splitPath_no_sep (show '/' ∉ DOWNLOADS_DIR by decide)]
  exact normSegs_valid _ (by
    intro seg hm
    rcases List.mem_append.mp hm with hm | hm
    · have := hcwd seg hm
      exact ⟨this.1, this.2.1, this.2.2.1⟩
    · rcases List.mem_singleton.mp hm with rfl
      refine ⟨by decide, by decide, by decide⟩)

theorem absSegs_join_valid (cwd : List Seg) (hcwd : ∀ seg ∈ cwd, validSeg seg)
    (n : Seg) (hn : validSeg n) :
    absSegs cwd (pyJoin DOWNLOADS_DIR n) = (cwd ++ [DOWNLOADS_DIR]) ++ [n] := by
  obtain ⟨hne, hdot, hdots, hsep⟩ := hn
  have hjoin : pyJoin DOWNLOADS_DIR n = DOWNLOADS_DIR ++ '/' :: n := by
    unfold pyJoin
    rw [if_neg ?hb, if_neg (by decide)]
    case hb =>
      cases n with
      | nil => cases hne rfl
      | cons c t =>
        rw [List.head?_cons]
        intro h
        rw [Option.some.injEq] at h
        exact hsep (h ▸ List.mem_cons_self c t)
  rw [hjoin]
  unfold absSegs
  rw [if_neg (by rw [show DOWNLOADS_DIR ++ '/' :: n = 'd' :: ("ownloads/".toList ++ n) from rfl,
      List.head?_cons]; intro h; cases h),
    splitPath_append_sep, splitPath_no_sep (show '/' ∉ DOWNLOADS_DIR by decide),
    splitPath_no_sep hsep]
  rw [show cwd ++ ([DOWNLOADS_DIR] ++ [n]) = (cwd ++ [DOWNLOADS_DIR]) ++ [n] by
    rw [List.append_assoc]]
  exact normSegs_valid _ (by
    intro seg hm
    rcases List.mem_append.mp hm with hm | hm
    · rcases List.mem_append.mp hm with hm | hm
      · have := hcwd seg hm
        exact ⟨this.1, this.2.1, this.2.2.1⟩
      · rcases List.mem_singleton.mp hm with rfl
        refine ⟨by decide, by decide, by decide⟩
    · rcases List.mem_singleton.mp hm with rfl
      exact ⟨hne, hdot, hdots⟩)

theorem segsToStr_append_single (l : List Seg) (n : Seg) (hl : l ≠ []) :
    segsToStr (l ++ [n]) = segsToStr l ++ '/' :: n := by
  unfold segsToStr
  rw [if_neg (by simp), if_neg hl, List.foldl_append]
  rfl

theorem withinStore_of_child (cwd : List Seg) (hcwd : ∀ seg ∈ cwd, validSeg seg)
    (n : Seg) (hn : validSeg n) :
    withinStore (storeAbs cwd) (segsToStr (deleteTarget cwd n)) := by
  unfold deleteTarget storeAbs
  rw [absSegs_join_valid cwd hcwd n hn, absSegs_downloads cwd hcwd,
    segsToStr_append_single (cwd ++ [DOWNLOADS_DIR]) n (by simp)]
  left
  rw [List.isPrefixOf_iff_prefix]
  exact ⟨n, by rw [List.append_assoc]; rfl⟩

theorem isFile_pathExists {fs : FS} {p : List Seg} (h : fs.isFile p = true) :
    fs.pathExists p = true := by
  unfold FS.isFile at h
  unfold FS.pathExists
  rw [h]
  rfl

/-- C1 counterexample: the serve route (`download_file`) resolves the
caller-supplied name `../../etc/passwd` to `/etc/passwd` — outside the
store — and serves it, because it applies no containment check. -/
theorem C1_counterexample :
    download_file exCwd exEscFS "../../etc/passwd".toList =
      .served [['e', 't', 'c'], "passwd".toList] ∧
    ¬ withinStore (storeAbs exCwd)
      (segsToStr [['e', 't', 'c'], "passwd".toList]) :=
  ⟨by decide, by decide⟩

/-- C1 (amended): the delete route only proceeds past its guards when the
resolved absolute path lies within (or equals) the store directory, and
the list route only consults direct children of the store directory, whose
resolved paths always lie within it; the serve route, by contrast, applies
no containment check (see the counterexample). -/
theorem C1_amended_containment (cwd : List Seg) (fs : FS) (name : PyStr)
    (hcwd : ∀ seg ∈ cwd, validSeg seg) :
    ((delete_file cwd fs name).1 ≠ .invalidName →
     (delete_file cwd fs name).1 ≠ .forbiddenName →
     (delete_file cwd fs name).1 ≠ .pathEscape →
     withinStore (storeAbs cwd) (segsToStr (deleteTarget cwd name))) ∧
    (∀ n ∈ fs.listdir (absSegs cwd DOWNLOADS_DIR), validSeg n →
     withinStore (storeAbs cwd) (segsToStr (deleteTarget cwd n))) := by
  constructor
  · simp only [delete_file, storeAbs, deleteTarget]
    split_ifs with h1 h2 h3 h4 h5 <;>
      first
        | (intro h _ _; exact absurd rfl h)
        | (intro _ h _; exact absurd rfl h)
        | (intro _ _ h; exact absurd rfl h)
        | (intro _ _ _; assumption)
  · intro n _ hn
    exact withinStore_of_child cwd hcwd n hn

/-- Witness for C1's amended statement: with cwd `/srv` and a store holding
`a.mp4`, the delete target of `a.mp4` is within `/srv/downloads`, as is the
resolved path of the listed entry `a.mp4`. -/
theorem C1_amended_containment_witness :
    (∀ seg ∈ exCwd, validSeg seg) ∧
    withinStore (storeAbs exCwd) (segsToStr (deleteTarget exCwd "a.mp4".toList)) :=
  ⟨by decide,
   (C1_amended_containment exCwd exFS "a.mp4".toList (by decide)).1
     (by decide) (by decide) (by decide)⟩

/-- C2: `delete_file` runs its checks in the specified order with the
specified outcomes — invalid name (empty/whitespace), forbidden name
(separator, backslash, `..`, leading dot), path escape, not found, invalid
target — leaving the filesystem untouched on every failure, and removes
the file only once all checks pass. -/
theorem C2_delete_check_order (cwd : List Seg) (fs : FS) (name : PyStr) :
    (pyStrip name = [] → delete_file cwd fs name = (.invalidName, fs)) ∧
    (pyStrip name ≠ [] → forbiddenName name →
      delete_file cwd fs name = (.forbiddenName, fs)) ∧
    (pyStrip name ≠ [] → ¬ forbiddenName name →
      ¬ withinStore (storeAbs cwd) (segsToStr (deleteTarget cwd name)) →
      delete_file cwd fs name = (.pathEscape, fs)) ∧
    (pyStrip name ≠ [] → ¬ forbiddenName name →
      withinStore (storeAbs cwd) (segsToStr (deleteTarget cwd name)) →
      fs.pathExists (deleteTarget cwd name) = false →
      delete_file cwd fs name = (.notFound, fs)) ∧
    (pyStrip name ≠ [] → ¬ forbiddenName name →
      withinStore (storeAbs cwd) (segsToStr (deleteTarget cwd name)) →
      fs.pathExists (deleteTarget cwd name) = true →
      fs.isFile (deleteTarget cwd name) = false →
      delete_file cwd fs name = (.invalidTarget, fs)) ∧
    (pyStrip name ≠ [] → ¬ forbiddenName name →
      withinStore (storeAbs cwd) (segsToStr (deleteTarget cwd name)) →
      fs.isFile (deleteTarget cwd name) = true →
      deleteTarget cwd name ∉ fs.locked →
      delete_file cwd fs name =
        (.deleted, fs.withoutPath (deleteTarget cwd name))) := by
  have hnempty : pyStrip name ≠ [] → ¬ (name = [] ∨ pyStrip name = []) := by
    intro h
    rw [not_or]
    exact ⟨fun hn => h (by rw [hn]; rfl), h⟩
  refine ⟨?_, ?_, ?_, ?_, ?_, ?_⟩
  · intro h
    simp only [delete_file]
    rw [if_pos (Or.inr h)]
  · intro h hf
    simp only [forbiddenName] at hf
    simp only [delete_file]
    rw [if_neg (hnempty h), if_pos hf]
  · intro h hf hw
    simp only [forbiddenName] at hf
    simp only [delete_file, storeAbs, deleteTarget] at hw ⊢
    rw [if_neg (hnempty h), if_neg hf, if_pos hw]
  · intro h hf hw hx
    simp only [forbiddenName] at hf
    simp only [delete_file, storeAbs, deleteTarget] at hw hx ⊢
    rw [if_neg (hnempty h), if_neg hf, if_neg (not_not.mpr hw),
      if_pos (by rw [hx]; exact fun hc => by cases hc)]
  · intro h hf hw hx hisf
    simp only [forbiddenName] at hf
    simp only [delete_file, storeAbs, deleteTarget] at hw hx hisf ⊢
    rw [if_neg (hnempty h), if_neg hf, if_neg (not_not.mpr hw),
      if_neg (by rw [hx]; exact fun hc => hc rfl),
      if_pos (by rw [hisf]; exact fun hc => by cases hc)]
  · intro h hf hw hisf hlock
    have hx := isFile_pathExists hisf
    simp only [forbiddenName] at hf
    simp only [delete_file, storeAbs, deleteTarget] at hw hx hisf hlock ⊢
    rw [if_neg (hnempty h), if_neg hf, if_neg (not_not.mpr hw),
      if_neg (by rw [hx]; exact fun hc => hc rfl),
      if_neg (by rw [hisf]; exact fun hc => hc rfl)]
    simp only [FS.removeFile]
    rw [if_neg hlock]

/-- Witness for C2 at concrete inputs: `.hidden` is rejected as a forbidden
name, and `a.mp4` is actually removed from the example store. -/
theorem C2_delete_check_order_witness :
    delete_file exCwd exFS ".hidden".toList = (.forbiddenName, exFS) ∧
    delete_file exCwd exFS "a.mp4".toList =
      (.deleted, exFS.withoutPath (deleteTarget exCwd "a.mp4".toList)) :=
  ⟨(C2_delete_check_order exCwd exFS ".hidden".toList).2.1 (by decide) (by decide),
   (C2_delete_check_order exCwd exFS "a.mp4".toList).2.2.2.2.2
     (by decide) (by decide) (by decide) (by decide) (by decide)⟩

/-- C10: delete is atomic — every failure outcome leaves the filesystem
exactly as it was, and the success outcome removes precisely the entries at
the single resolved target path (a regular file within the store),
changing nothing else. -/
theorem C10_delete_atomic (cwd : List Seg) (fs : FS) (name : PyStr) :
    ((delete_file cwd fs name).1 ≠ .deleted → (delete_file cwd fs name).2 = fs) ∧
    ((delete_file cwd fs name).1 = .deleted →
      fs.isFile (deleteTarget cwd name) = true ∧
      withinStore (storeAbs cwd) (segsToStr (deleteTarget cwd name)) ∧
      (delete_file cwd fs name).2 = fs.withoutPath (deleteTarget cwd name)) := by
  simp only [delete_file, storeAbs, deleteTarget, FS.removeFile]
  split_ifs with h1 h2 h3 h4 h5 h6 <;>
    first
      | exact ⟨fun _ => rfl, fun h => by cases h⟩
      | (refine ⟨fun h => absurd rfl h, fun _ => ⟨?_, ?_, rfl⟩⟩ <;> assumption)

/-- Witness for C10 at concrete inputs: a failing delete (missing `b.mp4`)
leaves the store untouched; a successful delete of `a.mp4` removes exactly
that file. -/
theorem C10_delete_atomic_witness :
    (delete_file exCwd exFS "b.mp4".toList).2 = exFS ∧
    (delete_file exCwd exFS "a.mp4".toList).2 =
      exFS.withoutPath (deleteTarget exCwd "a.mp4".toList) :=
  ⟨(C10_delete_atomic exCwd exFS "b.mp4".toList).1 (by decide),
   ((C10_delete_atomic exCwd exFS "a.mp4".toList).2 (by decide)).2.2⟩

/-! ## Helper lemmas: the fallback maximum -/

theorem foldl_pickMax_ge (key : Seg → Nat) (l : List Seg) : ∀ a : Seg,
    key a ≤ key (l.foldl (fun best x => if key x > key best then x else best) a) ∧
    ∀ m ∈ l, key m ≤ key (l.foldl (fun best x => if key x > key best then x else best) a) := by
  induction l with
  | nil => exact fun a => ⟨Nat.le_refl _, fun m hm => by cases hm⟩
  | cons x xs ih =>
    intro a
    rw [List.foldl_cons]
    by_cases hlt : key x > key a
    · rw [if_pos hlt]
      refine ⟨Nat.le_trans (Nat.le_of_lt hlt) (ih x).1, ?_⟩
      intro m hm
      rcases List.mem_cons.mp hm with rfl | hm
      · exact (ih m).1
      · exact (ih x).2 m hm
    · rw [if_neg hlt]
      refine ⟨(ih a).1, ?_⟩
      intro m hm
      rcases List.mem_cons.mp hm with rfl | hm
      · exact Nat.le_trans (Nat.le_of_not_lt hlt) (ih a).1
      · exact (ih a).2 m hm

theorem pyMaxByMtime_ge (cwd : List Seg) (fs : FS) (l : List Seg) (n : Seg)
    (h : pyMaxByMtime cwd fs l = some n) :
    ∀ m ∈ l, mtimeKey cwd fs m ≤ mtimeKey cwd fs n := by
  cases l with
  | nil => cases h
  | cons x xs =>
    unfold pyMaxByMtime at h
    rw [Option.some.injEq] at h
    subst h
    intro m hm
    rcases List.mem_cons.mp hm with rfl | hm
    · exact (foldl_pickMax_ge (mtimeKey cwd fs) xs m).1
    · exact (foldl_pickMax_ge (mtimeKey cwd fs) xs x).2 m hm

theorem pyMaxByMtime_eq_none_iff (cwd : List Seg) (fs : FS) (l : List Seg) :
    pyMaxByMtime cwd fs l = none ↔ l = [] := by
  cases l with
  | nil => exact ⟨fun _ => rfl, fun _ => rfl⟩
  | cons x xs =>
    constructor
    · intro h; cases h
    · intro h; cases h

/-- C7 (amended): when the expected output file is absent after a
successful transfer, the orchestrator falls back to the store directory's
most-recently-modified regular file: a non-empty store yields `Success`
with that file's name (maximal modification time among all store files),
while an empty store yields `Failure` whose message is
`'Video was downloaded but file could not be located'` — a string that
contains, but is not equal to, the claim's quoted
`'downloaded but file could not be located'`. -/
theorem C7_amended_fallback (inp : PyStr) (ydl : Extractor) (cwd : List Seg)
    (fs fs2 : FS) (info : Option YInfo) (u : PyStr)
    (hv : validate_youtube_input inp = .ok u)
    (hi : ydl.info = .ok info)
    (hd : ydl.runDownload fs = .ok fs2)
    (hmiss : fs2.pathExists (absSegs cwd (expectedFile ydl info)) = false) :
    (∀ n, pyMaxByMtime cwd fs2 (storeFiles cwd fs2) = some n →
      download_video inp ydl cwd fs =
        (.success (successMsg (titleOf info)) n (dlUrl n), fs2) ∧
      ∀ m ∈ storeFiles cwd fs2, mtimeKey cwd fs2 m ≤ mtimeKey cwd fs2 n) ∧
    (pyMaxByMtime cwd fs2 (storeFiles cwd fs2) = none →
      download_video inp ydl cwd fs =
        (.failure "Video was downloaded but file could not be located".toList, fs2) ∧
      ("downloaded but file could not be located".toList : PyStr) <:+:
        "Video was downloaded but file could not be located".toList) ∧
    (storeFiles cwd fs2 = [] ↔ pyMaxByMtime cwd fs2 (storeFiles cwd fs2) = none) := by
  have hdl : download_video inp ydl cwd fs =
      (match pyMaxByMtime cwd fs2 (storeFiles cwd fs2) with
        | some newest => (.success (successMsg (titleOf info)) newest (dlUrl newest), fs2)
        | none =>
          (.failure "Video was downloaded but file could not be located".toList, fs2)) := by
    simp only [download_video, hv, hi, hd, hmiss]
    simp
  refine ⟨?_, ?_, (pyMaxByMtime_eq_none_iff cwd fs2 _).symm⟩
  · intro n hn
    rw [hdl, hn]
    exact ⟨rfl, pyMaxByMtime_ge cwd fs2 _ n hn⟩
  · intro hn
    rw [hdl, hn]
    exact ⟨rfl, by decide⟩

/-- Witness for C7's amended statement: the collaborator reports title `X`
(expected file `X.mp4`) but writes `X_1.mp4`; the orchestrator reports
`Success` with filename `X_1.mp4`. -/
theorem C7_amended_fallback_witness :
    download_video "abcdefghijk".toList exWriteExtractor exCwd exEmptyFS =
      (.success (successMsg ['X']) "X_1.mp4".toList (dlUrl "X_1.mp4".toList),
        FS.mk [FileEntry.mk (exStore ++ ["X_1.mp4".toList]) 10 9]
          [[['s', 'r', 'v']], exStore] []) :=
  ((C7_amended_fallback "abcdefghijk".toList exWriteExtractor exCwd exEmptyFS
      (FS.mk [FileEntry.mk (exStore ++ ["X_1.mp4".toList]) 10 9]
        [[['s', 'r', 'v']], exStore] [])
      exInfoX (watchPre ++ "abcdefghijk".toList)
      (by decide) rfl rfl (by decide)).1
    "X_1.mp4".toList (by decide)).1

/-- C7 counterexample: with an empty store the failure message the code
produces is `'Video was downloaded but file could not be located'`, which
is not the message `'downloaded but file could not be located'` stated by
the claim. -/
theorem C7_counterexample :
    download_video "abcdefghijk".toList exNoopExtractor exCwd exEmptyFS =
      (.failure "Video was downloaded but file could not be located".toList,
        exEmptyFS) ∧
    "Video was downloaded but file could not be located".toList ≠
      "downloaded but file could not be located".toList :=
  ⟨by decide, by decide⟩

/-- C8: every collaborator failure — whether the metadata call or the
transfer call raises — is caught and converted to a `Failure` whose
message is `'Error downloading video: '` followed by the collaborator's
message (so it contains that message); `download_video` is a total
function of its inputs, so the fault never propagates. -/
theorem C8_collab_error_wrapped (inp : PyStr) (ydl : Extractor) (cwd : List Seg)
    (fs : FS) (u msg : PyStr)
    (hv : validate_youtube_input inp = .ok u) :
    (ydl.info = .error msg →
      download_video inp ydl cwd fs =
        (.failure ("Error downloading video: ".toList ++ msg), fs) ∧
      msg <:+: ("Error downloading video: ".toList ++ msg)) ∧
    (∀ info, ydl.info = .ok info → ydl.runDownload fs = .error msg →
      download_video inp ydl cwd fs =
        (.failure ("Error downloading video: ".toList ++ msg), fs) ∧
      msg <:+: ("Error downloading video: ".toList ++ msg)) := by
  have hsub : msg <:+: ("Error downloading video: ".toList ++ msg) :=
    (List.suffix_append _ _).isInfix
  constructor
  · intro hi
    refine ⟨?_, hsub⟩
    simp only [download_video, hv, hi]
  · intro info hi hd
    refine ⟨?_, hsub⟩
    simp only [download_video, hv, hi, hd]

/-- Witness for C8: a collaborator raising `'Video unavailable'` makes
`download_video` return a failure whose message contains it. -/
theorem C8_collab_error_wrapped_witness :
    download_video "abcdefghijk".toList exFailExtractor exCwd exEmptyFS =
      (.failure ("Error downloading video: ".toList ++ "Video unavailable".toList),
        exEmptyFS) :=
  ((C8_collab_error_wrapped "abcdefghijk".toList exFailExtractor exCwd exEmptyFS
      (watchPre ++ "abcdefghijk".toList) "Video unavailable".toList (by decide)).1 rfl).1

end YVD
